import Mathlib

/-!
Shallow embedding of `src/ldapauth.cc` (node-ldapauth).

The C++ file is a Node.js binding around blocking OpenLDAP calls.  Its
externally relevant behaviour is captured here as pure Lean functions:

* the worker tasks `EIO_Authenticate` and `EIO_Search`, parameterised by a
  world record describing what the LDAP library would answer (whether
  `ldap_open` yields a handle, the `ldap_simple_bind_s` result code, the
  attributes and `memberOf` values of the primary search result, and an
  oracle for the per-group sub-searches used by `SearchAncestors`);
* the completion dispatchers `EIO_AfterAuthenticate` and `EIO_AfterSearch`,
  which build the two-argument JavaScript callback payload;
* the entry points `Authenticate` (with its argument validation chain) and
  `BuildSearchRequest` / the validation-free `Search` entry;
* `ResultObject` / `JsResultObject`.  The C++ `ResultObject` accumulates into
  a `std::map` keyed by `char*`: the map is ordered by the *pointer values*
  returned by `strdup`, not by string contents.  We model this faithfully by
  threading an allocation counter and an address oracle `addr : Nat → Nat`
  (`addr n` is the address handed out by the n-th modelled allocation inside
  `ResultObject`, values first, then the key, and finally the `allGroups`
  key in `EIO_Search`), and by keeping the map as a list sorted strictly
  ascending by key address, with `std::map::insert` semantics (an insert on
  an already present key keeps the old entry);
* `SearchAncestors`, the recursive `memberOf` walk.  The C++ recursion has
  no cycle guard, so the Lean version takes a fuel bound on the recursion
  depth and returns `none` when the bound is exceeded: a directory on which
  every fuel yields `none` is one on which the C++ code never returns.
-/

/-! ## JavaScript boundary values -/

/-- Argument value handed to an entry point: the shapes the validation code
in `Authenticate` distinguishes (string, int32 number, function, anything
else such as `undefined` or a non-int32 number). -/
inductive JsArg where
  | str (s : String)
  | int32 (n : Int)
  | func
  | other
deriving DecidableEq, Repr

def argIsString : JsArg → Bool
  | .str _ => true
  | _ => false

def argIsInt32 : JsArg → Bool
  | .int32 _ => true
  | _ => false

def argIsFunc : JsArg → Bool
  | .func => true
  | _ => false

/-- Model of `String::Utf8Value` applied to an argument. -/
def jsToString : JsArg → String
  | .str s => s
  | .int32 n => toString n
  | .func => "function"
  | .other => "undefined"

/-- Model of `Int32Value` applied to an argument. -/
def jsToInt32 : JsArg → Int
  | .int32 n => n
  | _ => 0

/-- Value stored under one key of the JavaScript results object built by
`JsResultObject`: either a bare string or an array of strings. -/
inductive JsVal where
  | str (s : String)
  | arr (vs : List String)
deriving DecidableEq, Repr

/-- One argument of the completion callback payload. -/
inductive JsCallbackArg where
  | undef
  | err (msg : String)
  | boolean (b : Bool)
  | obj (entries : List (String × JsVal))
deriving DecidableEq, Repr

/-! ## LDAP client calls (trace of the external adapter) -/

/-- LDAP library calls a worker task performs, in order. -/
inductive LdapOp where
  | connect (host : String) (port : Int)
  | bind (username password : String)
  | search (base filter : String)
  | unbind
deriving DecidableEq, Repr

/-- `LDAP_SUCCESS` result code. -/
def LDAP_SUCCESS : Int := 0

/-! ## Authenticate -/

/-- The input fields of the C++ `auth_request` struct. -/
structure AuthRequest where
  host : String
  port : Int
  username : String
  password : String
deriving DecidableEq, Repr

/-- The outcome fields of the C++ `auth_request` struct. -/
structure AuthOutcome where
  connected : Bool
  authenticated : Bool
deriving DecidableEq, Repr

/-- What the LDAP library would answer during an authenticate task:
whether `ldap_open` returns a handle, and the `ldap_simple_bind_s` result
code for given credentials. -/
structure AuthWorld where
  openOk : Bool
  bindCode : String → String → Int

/-- Worker task `EIO_Authenticate`: `ldap_open`; on a null handle record
`connected = false, authenticated = false`; otherwise bind with the request
credentials, unbind, and record `connected = true` and
`authenticated = (bind code = LDAP_SUCCESS)`.  Also returns the trace of
LDAP calls performed. -/
def EIO_Authenticate (w : AuthWorld) (r : AuthRequest) :
    AuthOutcome × List LdapOp :=
  if w.openOk then
    (⟨true, decide (w.bindCode r.username r.password = LDAP_SUCCESS)⟩,
     [.connect r.host r.port, .bind r.username r.password, .unbind])
  else
    (⟨false, false⟩, [.connect r.host r.port])

/-- Dispatcher `EIO_AfterAuthenticate`: callback payload
`(error?, authenticated)`; the error slot is `undefined` when connected and
an `Error("LDAP connection failed")` otherwise. -/
def EIO_AfterAuthenticate (out : AuthOutcome) : JsCallbackArg × JsCallbackArg :=
  (if out.connected then .undef else .err "LDAP connection failed",
   .boolean out.authenticated)

/-- Entry point `Authenticate`: the argument validation chain, in source
order, ending in the parsed request.  `args.getD i .other` models V8 giving
`undefined` past the end of the argument list.  The port message is the
string the source throws (its text says "string" although the check is
`IsInt32`). -/
def Authenticate (args : List JsArg) : Except String AuthRequest :=
  if args.length < 5 then
    .error "Required arguments: ldap_host, ldap_port, username, password, callback"
  else if argIsString (args.getD 0 .other) = false then
    .error "ldap_host should be a string"
  else if argIsInt32 (args.getD 1 .other) = false then
    .error "ldap_port should be a string"
  else if argIsString (args.getD 2 .other) = false then
    .error "username should be a string"
  else if argIsString (args.getD 3 .other) = false then
    .error "password should be a string"
  else if argIsFunc (args.getD 4 .other) = false then
    .error "callback should be a function"
  else
    .ok ⟨jsToString (args.getD 0 .other), jsToInt32 (args.getD 1 .other),
         jsToString (args.getD 2 .other), jsToString (args.getD 3 .other)⟩

/-- Observable effects of one entry call: the synchronously thrown error (if
any), whether `eio_custom` scheduled a worker task, whether `ev_ref`
acquired the keep-alive reference, and how many times the completion
callback is eventually invoked (the dispatcher runs exactly once per
scheduled task and calls the callback exactly once). -/
structure EntryEffects where
  threw : Option String
  scheduled : Bool
  keepAlive : Bool
  callbackCalls : Nat
deriving DecidableEq, Repr

/-- Life of one `authenticate` call: a validation failure throws and
schedules nothing; a validated call schedules the task, takes the
keep-alive reference, and leads to exactly one callback invocation. -/
def authenticateCall (args : List JsArg) : EntryEffects :=
  match Authenticate args with
  | .error m => ⟨some m, false, false, 0⟩
  | .ok _ => ⟨none, true, true, 1⟩

/-! ## Search request construction -/

/-- The input fields of the C++ `search_request` struct. -/
structure SearchRequest where
  host : String
  port : Int
  username : String
  password : String
  base : String
  filter : String
deriving DecidableEq, Repr

/-- `BuildSearchRequest`: reads the seven arguments with no validation at
all and builds the request. -/
def BuildSearchRequest (args : List JsArg) : SearchRequest :=
  ⟨jsToString (args.getD 0 .other), jsToInt32 (args.getD 1 .other),
   jsToString (args.getD 2 .other), jsToString (args.getD 3 .other),
   jsToString (args.getD 4 .other), jsToString (args.getD 5 .other)⟩

/-- Life of one `search` call: the entry point `Search` performs no
argument validation, so every call schedules the worker task, takes the
keep-alive reference, and leads to one callback invocation. -/
def searchCall (args : List JsArg) : EntryEffects × SearchRequest :=
  (⟨none, true, true, 1⟩, BuildSearchRequest args)

/-! ## Result aggregation (`ResultObject` / `JsResultObject`) -/

/-- A directory entry as the adapter iterates it: attribute names with
their value lists, in server-returned order. -/
abbrev LdapEntry := List (String × List String)

/-- The C++ `std::map<char*, std::vector<char*>>`: entries ordered strictly
ascending by the address of the strdup-ed key. -/
abbrev LdapMap := List (Nat × String × List String)

/-- `std::map::insert`: place the entry at its sorted position by key
address; if an entry with the same key address is already present, keep the
old entry (insert does not overwrite). -/
def mapInsert (m : LdapMap) (k : Nat) (a : String) (vs : List String) :
    LdapMap :=
  match m with
  | [] => [(k, a, vs)]
  | (k₁, a₁, vs₁) :: rest =>
    if k < k₁ then (k, a, vs) :: (k₁, a₁, vs₁) :: rest
    else if k = k₁ then (k₁, a₁, vs₁) :: rest
    else (k₁, a₁, vs₁) :: mapInsert rest k a vs

/-- Attribute loop of `ResultObject`: for each attribute the values are
strdup-ed first (allocations `ctr, …, ctr + |vs| - 1`), then the key
(allocation `ctr + |vs|`), and the pair is inserted into the map. -/
def resultObjectGo (addr : Nat → Nat) :
    LdapEntry → Nat → LdapMap → LdapMap
  | [], _, m => m
  | (a, vs) :: rest, ctr, m =>
    resultObjectGo addr rest (ctr + vs.length + 1)
      (mapInsert m (addr (ctr + vs.length)) a vs)

/-- `ResultObject`: aggregate one entry into the pointer-keyed map, with
`addr` giving the address of each modelled allocation. -/
def ResultObject (addr : Nat → Nat) (entry : LdapEntry) : LdapMap :=
  resultObjectGo addr entry 0 []

/-- Number of allocations `ResultObject` performs on an entry (one per
value plus one per key). -/
def allocCount : LdapEntry → Nat
  | [] => 0
  | (_, vs) :: rest => vs.length + 1 + allocCount rest

/-- Value shape rule of `JsResultObject`: exactly one value gives a bare
string, anything else gives an array of the values. -/
def jsShape (vs : List String) : JsVal :=
  if vs.length = 1 then .str (vs.headD "") else .arr vs

/-- `JsResultObject`: walk the map in its (key-address) order and expose
each attribute under the single/multi value shape rule. -/
def JsResultObject (m : LdapMap) : List (String × JsVal) :=
  m.map fun p => (p.2.1, jsShape p.2.2)

/-! ## Ancestor resolution (`SearchAncestors`) -/

/-- What a `(distinguishedName=g)` sub-search yields for one group: the
extracted `name` values and `memberOf` values.  A directory answering
`none` models `ldap_search_ext_s` returning a non-success code; a found-
nothing success is `some` with both lists empty. -/
structure GroupEntry where
  names : List String
  memberOf : List String
deriving DecidableEq, Repr

/-- Sequentially resolve a list of groups with `f`, appending the pieces in
order (the `for` loop over `memberOf` values); fails if any piece fails. -/
def appendResolved (f : String → Option (List String)) :
    List String → Option (List String)
  | [] => some []
  | g :: gs =>
    match f g, appendResolved f gs with
    | some r, some rest => some (r ++ rest)
    | _, _ => none

/-- `SearchAncestors` with an explicit recursion-depth bound `fuel`
(returning `none` when the bound is exceeded — the C++ recursion has no
such bound and simply never returns on those inputs).  On a successful
sub-search: record the first `name` value (or the raw identifier when
`name` has no values) and recurse into each `memberOf` value; on a failed
sub-search: record the raw identifier and stop. -/
def SearchAncestors (dir : String → Option GroupEntry) :
    Nat → String → Option (List String)
  | 0 => fun _ => none
  | fuel + 1 => fun group =>
    match dir group with
    | none => some [group]
    | some e =>
      match appendResolved (SearchAncestors dir fuel) e.memberOf with
      | none => none
      | some rest =>
        some ((if e.names.length = 0 then group else e.names.headD group)
          :: rest)

/-! ## Search worker task and dispatcher -/

/-- What the LDAP library would answer during a search task: whether
`ldap_open` returns a handle, the (discarded) bind and search result codes,
the attributes and `memberOf` values of the primary result message, the
sub-search oracle for ancestor resolution, and the allocation address
oracle. -/
structure SearchWorld where
  openOk : Bool
  bindCode : Int
  searchCode : Int
  entry : LdapEntry
  memberOf : List String
  dir : String → Option GroupEntry
  addr : Nat → Nat

/-- The outcome fields of the C++ `search_request` struct. -/
structure SearchOutcome where
  connected : Bool
  result : LdapMap
deriving DecidableEq, Repr

/-- Worker task `EIO_Search`: `ldap_open`; on a null handle record
`connected = false` with the default-constructed empty map.  Otherwise
bind and search, both return codes unread; resolve ancestors from each
`memberOf` value of the result message, appending; aggregate the entry with
`ResultObject`; insert the group list under a freshly allocated
`"allGroups"` key; record `connected = true`; unbind.  `none` models the
worker never returning (ancestor resolution exceeded every bound). -/
def EIO_Search (fuel : Nat) (w : SearchWorld) (r : SearchRequest) :
    Option (SearchOutcome × List LdapOp) :=
  if w.openOk then
    match appendResolved (SearchAncestors w.dir fuel) w.memberOf with
    | none => none
    | some groups =>
      some (⟨true,
             mapInsert (ResultObject w.addr w.entry)
               (w.addr (allocCount w.entry)) "allGroups" groups⟩,
            [.connect r.host r.port, .bind r.username r.password,
             .search r.base r.filter, .unbind])
  else
    some (⟨false, []⟩, [.connect r.host r.port])

/-- Dispatcher `EIO_AfterSearch`: callback payload `(error?, results?)`;
the error slot is `undefined` when connected and an
`Error("LDAP connection failed")` otherwise; the results slot is the
JavaScript results object when connected and `undefined` otherwise. -/
def EIO_AfterSearch (out : SearchOutcome) : JsCallbackArg × JsCallbackArg :=
  (if out.connected then .undef else .err "LDAP connection failed",
   if out.connected then .obj (JsResultObject out.result) else .undef)

/-! ## Helper lemmas about the pointer-keyed map -/

/-- The list `resultObjectGo` appends when every insert lands past the end:
each attribute paired with its key address. -/
def buildList (addr : Nat → Nat) : Nat → LdapEntry → LdapMap
  | _, [] => []
  | ctr, (a, vs) :: rest =>
    (addr (ctr + vs.length), a, vs) :: buildList addr (ctr + vs.length + 1) rest

theorem mapInsert_append :
    ∀ (m : LdapMap) (k : Nat) (a : String) (vs : List String),
      (∀ p ∈ m, p.1 < k) → mapInsert m k a vs = m ++ [(k, a, vs)]
  | [], _, _, _, _ => rfl
  | (k₁, a₁, vs₁) :: rest, k, a, vs, h => by
    have hk₁ : k₁ < k := h (k₁, a₁, vs₁) (by simp)
    have h1 : ¬ k < k₁ := Nat.lt_asymm hk₁
    have h2 : ¬ k = k₁ := (Nat.ne_of_lt hk₁).symm
    have ih := mapInsert_append rest k a vs (fun p hp => h p (by simp [hp]))
    simp [mapInsert, h1, h2, ih]

theorem buildList_map_proj (addr : Nat → Nat) :
    ∀ (ctr : Nat) (entry : LdapEntry),
      (buildList addr ctr entry).map (fun p => (p.2.1, p.2.2)) = entry
  | _, [] => rfl
  | ctr, (a, vs) :: rest => by
    simp [buildList, buildList_map_proj addr (ctr + vs.length + 1) rest]

theorem buildList_key_lt (addr : Nat → Nat) (h : StrictMono addr) :
    ∀ (ctr : Nat) (entry : LdapEntry) (p : Nat × String × List String),
      p ∈ buildList addr ctr entry → p.1 < addr (ctr + allocCount entry)
  | _, [], p, hp => by simp [buildList] at hp
  | ctr, (a, vs) :: rest, p, hp => by
    simp only [buildList, List.mem_cons] at hp
    rcases hp with hp | hp
    · subst hp
      exact h (by simp [allocCount]; omega)
    · have := buildList_key_lt addr h (ctr + vs.length + 1) rest p hp
      have harith : ctr + vs.length + 1 + allocCount rest
          = ctr + allocCount ((a, vs) :: rest) := by
        simp [allocCount]; omega
      rwa [harith] at this

theorem resultObjectGo_eq (addr : Nat → Nat) (h : StrictMono addr) :
    ∀ (entry : LdapEntry) (ctr : Nat) (m : LdapMap),
      (∀ p ∈ m, p.1 < addr ctr) →
      resultObjectGo addr entry ctr m = m ++ buildList addr ctr entry
  | [], ctr, m, _ => by simp [resultObjectGo, buildList]
  | (a, vs) :: rest, ctr, m, hm => by
    have hlt : ∀ p ∈ m, p.1 < addr (ctr + vs.length) := fun p hp =>
      lt_of_lt_of_le (hm p hp) (h.monotone (Nat.le_add_right ctr vs.length))
    have hins := mapInsert_append m (addr (ctr + vs.length)) a vs hlt
    have hnext : ∀ p ∈ m ++ [(addr (ctr + vs.length), a, vs)],
        p.1 < addr (ctr + vs.length + 1) := by
      intro p hp
      rcases List.mem_append.mp hp with hp | hp
      · exact lt_trans (hm p hp) (h (by omega))
      · simp only [List.mem_singleton] at hp
        subst hp
        exact h (by omega)
    have ih := resultObjectGo_eq addr h rest (ctr + vs.length + 1)
      (m ++ [(addr (ctr + vs.length), a, vs)]) hnext
    calc resultObjectGo addr ((a, vs) :: rest) ctr m
        = resultObjectGo addr rest (ctr + vs.length + 1)
            (mapInsert m (addr (ctr + vs.length)) a vs) := rfl
      _ = (m ++ [(addr (ctr + vs.length), a, vs)])
            ++ buildList addr (ctr + vs.length + 1) rest := by rw [hins, ih]
      _ = m ++ buildList addr ctr ((a, vs) :: rest) := by
            simp [buildList]

theorem ResultObject_eq (addr : Nat → Nat) (h : StrictMono addr)
    (entry : LdapEntry) : ResultObject addr entry = buildList addr 0 entry := by
  simpa [ResultObject] using resultObjectGo_eq addr h entry 0 [] (by simp)

/-! ## Concrete directories for the ancestor-resolution claims -/

/-- A three-node `memberOf` cycle: A belongs to B, B to C, C to A. -/
def cycleDir : String → Option GroupEntry := fun g =>
  if g = "A" then some ⟨["A"], ["B"]⟩
  else if g = "B" then some ⟨["B"], ["C"]⟩
  else if g = "C" then some ⟨["C"], ["A"]⟩
  else none

theorem cycleDir_none :
    ∀ fuel : Nat, SearchAncestors cycleDir fuel "A" = none
      ∧ SearchAncestors cycleDir fuel "B" = none
      ∧ SearchAncestors cycleDir fuel "C" = none := by
  intro fuel
  induction fuel with
  | zero => exact ⟨rfl, rfl, rfl⟩
  | succ n ih =>
    obtain ⟨hA, hB, hC⟩ := ih
    refine ⟨?_, ?_, ?_⟩ <;>
      simp [SearchAncestors, cycleDir, appendResolved, hA, hB, hC]

/-- A linear chain: B belongs to C (with `name` values `nb`), C belongs to
nothing (with `name` values `nc`); nothing else resolves. -/
def chainDir (nb nc : List String) : String → Option GroupEntry := fun g =>
  if g = "B" then some ⟨nb, ["C"]⟩
  else if g = "C" then some ⟨nc, []⟩
  else none

/-! ## Connection/outcome case split of the search worker -/

theorem EIO_Search_cases (fuel : Nat) (w : SearchWorld) (r : SearchRequest)
    (out : SearchOutcome) (ops : List LdapOp)
    (h : EIO_Search fuel w r = some (out, ops)) :
    (w.openOk = true ∧ ∃ groups,
      appendResolved (SearchAncestors w.dir fuel) w.memberOf = some groups ∧
      out = ⟨true, mapInsert (ResultObject w.addr w.entry)
               (w.addr (allocCount w.entry)) "allGroups" groups⟩ ∧
      ops = [.connect r.host r.port, .bind r.username r.password,
             .search r.base r.filter, .unbind]) ∨
    (w.openOk = false ∧ out = ⟨false, []⟩ ∧ ops = [.connect r.host r.port]) := by
  by_cases hw : w.openOk = true
  · left
    refine ⟨hw, ?_⟩
    simp only [EIO_Search, hw, if_true] at h
    rcases hg : appendResolved (SearchAncestors w.dir fuel) w.memberOf
      with _ | groups
    · rw [hg] at h
      simp at h
    · rw [hg] at h
      simp only [Option.some.injEq, Prod.mk.injEq] at h
      exact ⟨groups, rfl, h.1.symm, h.2.symm⟩
  · right
    have hw' : w.openOk = false := by simpa using hw
    simp only [EIO_Search, hw', Bool.false_eq_true, if_false,
      Option.some.injEq, Prod.mk.injEq] at h
    exact ⟨hw', h.1.symm, h.2.symm⟩

/-! ## Sample inputs used by the witnesses -/

def sampleAuthReq : AuthRequest := ⟨"localhost", 389, "user", "secret"⟩

def sampleReq : SearchRequest :=
  ⟨"localhost", 389, "user", "secret", "dc=example", "(uid=user)"⟩

/-! ## Claims -/

/-- C1: for every authenticate request reaching the worker task, a null
handle from open yields `connected = false`, `authenticated = false` and no
bind call; otherwise the task binds with the supplied credentials, unbinds
unconditionally afterwards, and records `connected = true` with
`authenticated` equal to whether the bind returned success. -/
theorem EIO_Authenticate_spec (w : AuthWorld) (r : AuthRequest) :
    (w.openOk = false →
      (EIO_Authenticate w r).1.connected = false ∧
      (EIO_Authenticate w r).1.authenticated = false ∧
      ∀ u p, LdapOp.bind u p ∉ (EIO_Authenticate w r).2) ∧
    (w.openOk = true →
      (EIO_Authenticate w r).2 =
        [LdapOp.connect r.host r.port, LdapOp.bind r.username r.password,
         LdapOp.unbind] ∧
      (EIO_Authenticate w r).1.connected = true ∧
      ((EIO_Authenticate w r).1.authenticated = true ↔
        w.bindCode r.username r.password = LDAP_SUCCESS)) := by
  constructor
  · intro h
    simp [EIO_Authenticate, h]
  · intro h
    simp [EIO_Authenticate, h]

theorem EIO_Authenticate_spec_witness :
    (EIO_Authenticate ⟨false, fun _ _ => 0⟩ sampleAuthReq).1.connected = false ∧
    (EIO_Authenticate ⟨false, fun _ _ => 0⟩ sampleAuthReq).1.authenticated
      = false ∧
    LdapOp.bind "user" "secret"
      ∉ (EIO_Authenticate ⟨false, fun _ _ => 0⟩ sampleAuthReq).2 ∧
    (EIO_Authenticate ⟨true, fun _ _ => 49⟩ sampleAuthReq).1.connected = true :=
  ⟨((EIO_Authenticate_spec ⟨false, fun _ _ => 0⟩ sampleAuthReq).1 rfl).1,
   ((EIO_Authenticate_spec ⟨false, fun _ _ => 0⟩ sampleAuthReq).1 rfl).2.1,
   ((EIO_Authenticate_spec ⟨false, fun _ _ => 0⟩ sampleAuthReq).1 rfl).2.2
     "user" "secret",
   ((EIO_Authenticate_spec ⟨true, fun _ _ => 49⟩ sampleAuthReq).2 rfl).2.1⟩

/-- C4: for every authenticate request with a reachable server, the
completion callback receives an absent error; with valid credentials (bind
code `LDAP_SUCCESS`) it receives `authenticated = true`, and with rejected
credentials it receives `authenticated = false`. -/
theorem authenticate_bind_outcome (w : AuthWorld) (r : AuthRequest)
    (hopen : w.openOk = true) :
    (EIO_AfterAuthenticate (EIO_Authenticate w r).1).1 = JsCallbackArg.undef ∧
    (w.bindCode r.username r.password = LDAP_SUCCESS →
      (EIO_AfterAuthenticate (EIO_Authenticate w r).1).2
        = JsCallbackArg.boolean true) ∧
    (w.bindCode r.username r.password ≠ LDAP_SUCCESS →
      (EIO_AfterAuthenticate (EIO_Authenticate w r).1).2
        = JsCallbackArg.boolean false) := by
  refine ⟨?_, ?_, ?_⟩
  · simp [EIO_Authenticate, EIO_AfterAuthenticate, hopen]
  · intro h
    simp [EIO_Authenticate, EIO_AfterAuthenticate, hopen, h]
  · intro h
    simp [EIO_Authenticate, EIO_AfterAuthenticate, hopen, h]

theorem authenticate_bind_outcome_witness :
    (EIO_AfterAuthenticate
        (EIO_Authenticate ⟨true, fun _ _ => 0⟩ sampleAuthReq).1).2
      = JsCallbackArg.boolean true ∧
    (EIO_AfterAuthenticate
        (EIO_Authenticate ⟨true, fun _ _ => 49⟩ sampleAuthReq).1).2
      = JsCallbackArg.boolean false :=
  ⟨(authenticate_bind_outcome ⟨true, fun _ _ => 0⟩ sampleAuthReq rfl).2.1 rfl,
   (authenticate_bind_outcome ⟨true, fun _ _ => 49⟩ sampleAuthReq rfl).2.2
     (by decide)⟩

/-- C5: for every request, the error slot of the callback payload is
populated exactly when `connected = false`; a populated error carries the
fixed "LDAP connection failed" condition; on that path `authenticated` is
false for authenticate, and for search the result map stayed empty and the
results slot is `undefined`. -/
theorem error_iff_disconnected (w : AuthWorld) (r : AuthRequest)
    (fuel : Nat) (sw : SearchWorld) (sr : SearchRequest)
    (sout : SearchOutcome) (sops : List LdapOp)
    (hs : EIO_Search fuel sw sr = some (sout, sops)) :
    ((∃ m, (EIO_AfterAuthenticate (EIO_Authenticate w r).1).1
        = JsCallbackArg.err m) ↔ (EIO_Authenticate w r).1.connected = false) ∧
    (∀ m, (EIO_AfterAuthenticate (EIO_Authenticate w r).1).1
        = JsCallbackArg.err m → m = "LDAP connection failed") ∧
    ((EIO_Authenticate w r).1.connected = false →
      (EIO_AfterAuthenticate (EIO_Authenticate w r).1).2
        = JsCallbackArg.boolean false) ∧
    ((∃ m, (EIO_AfterSearch sout).1 = JsCallbackArg.err m) ↔
      sout.connected = false) ∧
    (∀ m, (EIO_AfterSearch sout).1 = JsCallbackArg.err m →
      m = "LDAP connection failed") ∧
    (sout.connected = false → sout.result = [] ∧
      (EIO_AfterSearch sout).2 = JsCallbackArg.undef) := by
  have hsearch : sout.connected = false → sout.result = [] := by
    intro hc
    rcases EIO_Search_cases fuel sw sr sout sops hs with
      ⟨_, _, _, hout, _⟩ | ⟨_, hout, _⟩
    · rw [hout] at hc
      simp at hc
    · rw [hout]
  refine ⟨?_, ?_, ?_, ?_, ?_, fun hc => ⟨hsearch hc, ?_⟩⟩
  · by_cases hw : w.openOk = true <;>
      simp [EIO_Authenticate, EIO_AfterAuthenticate, hw]
  · intro m hm
    by_cases hw : w.openOk = true <;>
      simp [EIO_Authenticate, EIO_AfterAuthenticate, hw] at hm
    · exact hm.symm
  · intro hc
    by_cases hw : w.openOk = true
    · simp [EIO_Authenticate, hw] at hc
    · simp [EIO_Authenticate, EIO_AfterAuthenticate, hw]
  · by_cases hc : sout.connected = true <;> simp [EIO_AfterSearch, hc]
  · intro m hm
    by_cases hc : sout.connected = true <;>
      simp [EIO_AfterSearch, hc] at hm
    · exact hm.symm
  · simp [EIO_AfterSearch, hc]

theorem error_iff_disconnected_witness :
    ((EIO_AfterAuthenticate
        (EIO_Authenticate ⟨false, fun _ _ => 0⟩ sampleAuthReq).1).2
      = JsCallbackArg.boolean false) ∧
    (EIO_AfterSearch (⟨false, []⟩ : SearchOutcome)).2 = JsCallbackArg.undef :=
  ⟨(error_iff_disconnected ⟨false, fun _ _ => 0⟩ sampleAuthReq 1
      ⟨false, 0, 0, [], [], fun _ => none, fun n => n⟩ sampleReq
      ⟨false, []⟩ [.connect "localhost" 389] rfl).2.2.1 rfl,
   ((error_iff_disconnected ⟨false, fun _ _ => 0⟩ sampleAuthReq 1
      ⟨false, 0, 0, [], [], fun _ => none, fun n => n⟩ sampleReq
      ⟨false, []⟩ [.connect "localhost" 389] rfl).2.2.2.2.2 rfl).2⟩

/-- C10: in the search worker task the `connected` outcome is exactly
whether open returned a handle; the bind and search return codes are
discarded, so changing them changes nothing in the outcome, and with a
handle the task still performed the bind call. -/
theorem EIO_Search_discards_codes (fuel : Nat) (w : SearchWorld)
    (r : SearchRequest) (out : SearchOutcome) (ops : List LdapOp)
    (h : EIO_Search fuel w r = some (out, ops)) :
    out.connected = w.openOk ∧
    (∀ b s, EIO_Search fuel { w with bindCode := b, searchCode := s } r
      = some (out, ops)) ∧
    (w.openOk = true → LdapOp.bind r.username r.password ∈ ops) := by
  have hsame : ∀ b s,
      EIO_Search fuel { w with bindCode := b, searchCode := s } r
        = EIO_Search fuel w r := fun _ _ => rfl
  refine ⟨?_, fun b s => (hsame b s).trans h, ?_⟩
  · rcases EIO_Search_cases fuel w r out ops h with
      ⟨hw, _, _, hout, _⟩ | ⟨hw, hout, _⟩ <;> rw [hout, hw]
  · intro hw
    rcases EIO_Search_cases fuel w r out ops h with
      ⟨_, _, _, _, hops⟩ | ⟨hw', _, _⟩
    · rw [hops]
      simp
    · rw [hw'] at hw
      exact absurd hw (by simp)

theorem EIO_Search_discards_codes_witness :
    EIO_Search 1 ⟨true, 999, 999, [], [], fun _ => none, fun n => n⟩ sampleReq
      = some (⟨true, [(0, "allGroups", [])]⟩,
          [.connect "localhost" 389, .bind "user" "secret",
           .search "dc=example" "(uid=user)", .unbind]) ∧
    LdapOp.bind "user" "secret" ∈
      ([.connect "localhost" 389, .bind "user" "secret",
        .search "dc=example" "(uid=user)", .unbind] : List LdapOp) :=
  ⟨(EIO_Search_discards_codes 1
      ⟨true, 5, 7, [], [], fun _ => none, fun n => n⟩ sampleReq
      ⟨true, [(0, "allGroups", [])]⟩
      [.connect "localhost" 389, .bind "user" "secret",
       .search "dc=example" "(uid=user)", .unbind] rfl).2.1 999 999,
   (EIO_Search_discards_codes 1
      ⟨true, 5, 7, [], [], fun _ => none, fun n => n⟩ sampleReq
      ⟨true, [(0, "allGroups", [])]⟩
      [.connect "localhost" 389, .bind "user" "secret",
       .search "dc=example" "(uid=user)", .unbind] rfl).2.2 rfl⟩

/-- A syntactically valid search argument list except that the host is a
number, not a string. -/
def c2Args : List JsArg :=
  [.int32 5, .int32 389, .str "user", .str "secret", .str "dc=example",
   .str "(uid=user)", .func]

/-- C2 counterexample: a search call whose host argument is not a string is
not rejected — the entry point throws nothing, schedules the worker task,
acquires the keep-alive reference, and the callback is invoked once. -/
theorem search_no_validation_cex :
    argIsString (c2Args.getD 0 .other) = false ∧
    (searchCall c2Args).1.threw = none ∧
    (searchCall c2Args).1.scheduled = true ∧
    (searchCall c2Args).1.keepAlive = true ∧
    (searchCall c2Args).1.callbackCalls = 1 := by
  decide

/-- C2 (amended): malformed authenticate calls (wrong arity, non-string
host, or non-function callback slot) are rejected synchronously with the
descriptive error, scheduling no task, acquiring no keep-alive reference,
and never invoking the callback; search calls, by contrast, perform no
argument validation and always schedule the worker task. -/
theorem entry_validation_spec (args : List JsArg) :
    (args.length < 5 →
      authenticateCall args = ⟨some "Required arguments: ldap_host, ldap_port, username, password, callback", false, false, 0⟩) ∧
    (5 ≤ args.length → argIsString (args.getD 0 .other) = false →
      authenticateCall args
        = ⟨some "ldap_host should be a string", false, false, 0⟩) ∧
    (argIsFunc (args.getD 4 .other) = false →
      (authenticateCall args).threw.isSome = true ∧
      (authenticateCall args).scheduled = false ∧
      (authenticateCall args).keepAlive = false ∧
      (authenticateCall args).callbackCalls = 0) ∧
    ((searchCall args).1.threw = none ∧ (searchCall args).1.scheduled = true ∧
      (searchCall args).1.keepAlive = true ∧
      (searchCall args).1.callbackCalls = 1) := by
  refine ⟨?_, ?_, ?_, ?_⟩
  · intro h
    simp [authenticateCall, Authenticate, h]
  · intro h5 hstr
    have h5' : ¬ args.length < 5 := Nat.not_lt.mpr h5
    have hstr' : argIsString (args[0]?.getD JsArg.other) = false := by
      simpa using hstr
    simp [authenticateCall, Authenticate, h5', hstr']
  · intro hf
    rcases hA : Authenticate args with m | req
    · simp [authenticateCall, hA]
    · exfalso
      simp only [Authenticate] at hA
      split_ifs at hA
  · simp [searchCall]

theorem entry_validation_spec_witness :
    authenticateCall []
      = ⟨some "Required arguments: ldap_host, ldap_port, username, password, callback", false, false, 0⟩ ∧
    authenticateCall c2Args
      = ⟨some "ldap_host should be a string", false, false, 0⟩ ∧
    (searchCall c2Args).1.scheduled = true :=
  ⟨(entry_validation_spec []).1 (by decide),
   (entry_validation_spec c2Args).2.1 (by decide) (by decide),
   (entry_validation_spec c2Args).2.2.2.2.1⟩

/-- C3: the recursive `memberOf` walk of the source has no visited-set
guard, so on the finite three-node cycle A→B→C→A it exceeds every
recursion-depth bound — for every fuel the resolution starting at A is
still incomplete, i.e. the C++ recursion never returns. -/
theorem SearchAncestors_cycle_diverges (fuel : Nat) :
    SearchAncestors cycleDir fuel "A" = none :=
  (cycleDir_none fuel).1

/-- C6 counterexample: with a decreasing allocation-address oracle (freed
adapter buffers being reused downwards), the entry
`[("cn",["Alice"]), ("mail",["a@x.com","a@y.com"])]` comes out of the
pointer-keyed map with key order `mail, cn`, not the server order
`cn, mail`. -/
theorem ResultObject_order_cex :
    (JsResultObject (ResultObject (fun n => 100 - n)
        [("cn", ["Alice"]), ("mail", ["a@x.com", "a@y.com"])])).map Prod.fst
      = ["mail", "cn"] ∧
    (["mail", "cn"] : List String) ≠ ["cn", "mail"] :=
  ⟨rfl, by decide⟩

/-- C6 (amended): each attribute keeps its within-attribute value order,
and the map key order is the ascending order of the addresses `strdup`
assigned to the keys; whenever those addresses are handed out in strictly
increasing allocation order, the aggregated map lists exactly the
server-returned attributes, in server order, with their value lists
unchanged. -/
theorem ResultObject_order_preserving (addr : Nat → Nat)
    (h : StrictMono addr) (entry : LdapEntry) :
    (ResultObject addr entry).map (fun p => (p.2.1, p.2.2)) = entry := by
  rw [ResultObject_eq addr h, buildList_map_proj]

theorem ResultObject_order_preserving_witness :
    (ResultObject (fun n => n)
        [("cn", ["Alice"]), ("mail", ["a@x.com", "a@y.com"])]).map
      (fun p => (p.2.1, p.2.2))
      = [("cn", ["Alice"]), ("mail", ["a@x.com", "a@y.com"])] :=
  ResultObject_order_preserving (fun n => n) (fun _ _ hab => hab) _

/-- C7: every key of the results map handed to the callback follows the
single/multi shape rule — a key with exactly one underlying value is
exposed as a bare string, and a key with two or more values as the ordered
array of its values. -/
theorem JsResultObject_value_shape (m : LdapMap) (k : Nat) (a : String)
    (vs : List String) (hmem : (k, a, vs) ∈ m) :
    (vs.length = 1 → (a, JsVal.str (vs.headD "")) ∈ JsResultObject m) ∧
    (2 ≤ vs.length → (a, JsVal.arr vs) ∈ JsResultObject m) := by
  constructor
  · intro h1
    have hmap : ((k, a, vs).2.1, jsShape (k, a, vs).2.2) ∈ JsResultObject m :=
      List.mem_map_of_mem _ hmem
    simpa [jsShape, h1] using hmap
  · intro h2
    have hmap : ((k, a, vs).2.1, jsShape (k, a, vs).2.2) ∈ JsResultObject m :=
      List.mem_map_of_mem _ hmem
    have hne : vs.length ≠ 1 := by omega
    simpa [jsShape, hne] using hmap

theorem JsResultObject_value_shape_witness :
    ("cn", JsVal.str "Alice") ∈ JsResultObject
      [(1, "cn", ["Alice"]), (2, "mail", ["a@x.com", "a@y.com"])] ∧
    ("mail", JsVal.arr ["a@x.com", "a@y.com"]) ∈ JsResultObject
      [(1, "cn", ["Alice"]), (2, "mail", ["a@x.com", "a@y.com"])] :=
  ⟨(JsResultObject_value_shape _ 1 "cn" ["Alice"] (by decide)).1 rfl,
   (JsResultObject_value_shape _ 2 "mail" ["a@x.com", "a@y.com"]
      (by decide)).2 (by decide)⟩

/-- C8: on the linear chain B ∈ C, C ∈ ∅, resolution starting from the
`memberOf` value B records `[nameOf B, nameOf C]` in that order, each
display name being the first `name` value of the resolved entry with the
raw identifier as fallback when `name` has no values. -/
theorem SearchAncestors_linear_chain (fuel : Nat) (nb nc : List String) :
    SearchAncestors (chainDir nb nc) (fuel + 2) "B" =
      some [(if nb.length = 0 then "B" else nb.headD "B"),
            (if nc.length = 0 then "C" else nc.headD "C")] := rfl

/-- C9 counterexample: a connected search whose matched entry has no
`memberOf` value still gets the synthetic `allGroups` key, and it maps to
the empty list — so `allGroups` is not present "exactly when at least one
`memberOf` value exists", and not every key maps to a non-empty list. -/
theorem EIO_Search_allGroups_cex :
    (⟨true, 0, 0, [("cn", ["Alice"])], [], fun _ => none, fun n => n⟩
      : SearchWorld).memberOf = [] ∧
    EIO_Search 1
        ⟨true, 0, 0, [("cn", ["Alice"])], [], fun _ => none, fun n => n⟩
        sampleReq
      = some (⟨true, [(1, "cn", ["Alice"]), (2, "allGroups", [])]⟩,
          [.connect "localhost" 389, .bind "user" "secret",
           .search "dc=example" "(uid=user)", .unbind]) ∧
    ("allGroups", ([] : List String)) ∈
      ([(1, "cn", ["Alice"]), (2, "allGroups", [])] : LdapMap).map
        (fun p => (p.2.1, p.2.2)) :=
  ⟨rfl, rfl, by decide⟩

/-- C9 (amended): for every search that completes with a connection and
strictly increasing allocation addresses, the results map is exactly the
server entry (in order, with the server value lists, hence non-empty keys
whenever the server lists are non-empty) followed by the synthetic
`allGroups` key, which is always present and holds the concatenated
ancestor resolution of the `memberOf` values — the empty list when there
are none. -/
theorem EIO_Search_results_structure (fuel : Nat) (w : SearchWorld)
    (r : SearchRequest) (out : SearchOutcome) (ops : List LdapOp)
    (h : EIO_Search fuel w r = some (out, ops)) (hopen : w.openOk = true)
    (haddr : StrictMono w.addr) :
    ∃ groups,
      appendResolved (SearchAncestors w.dir fuel) w.memberOf = some groups ∧
      out.result.map (fun p => (p.2.1, p.2.2))
        = w.entry ++ [("allGroups", groups)] ∧
      (w.memberOf = [] → groups = []) := by
  rcases EIO_Search_cases fuel w r out ops h with
    ⟨_, groups, hg, hout, _⟩ | ⟨hw, _, _⟩
  · refine ⟨groups, hg, ?_, ?_⟩
    · have hro := ResultObject_eq w.addr haddr w.entry
      have hkeys : ∀ p ∈ ResultObject w.addr w.entry,
          p.1 < w.addr (allocCount w.entry) := by
        intro p hp
        rw [hro] at hp
        have := buildList_key_lt w.addr haddr 0 w.entry p hp
        simpa using this
      rw [hout]
      show (mapInsert (ResultObject w.addr w.entry)
          (w.addr (allocCount w.entry)) "allGroups" groups).map
          (fun p => (p.2.1, p.2.2)) = _
      rw [mapInsert_append _ _ _ _ hkeys, List.map_append, hro,
        buildList_map_proj]
      simp
    · intro hmo
      rw [hmo] at hg
      simpa [appendResolved] using hg.symm
  · rw [hw] at hopen
    exact absurd hopen (by simp)

theorem EIO_Search_results_structure_witness :
    (⟨true, [(1, "cn", ["Alice"]), (2, "allGroups", [])]⟩
        : SearchOutcome).result.map (fun p => (p.2.1, p.2.2))
      = [("cn", ["Alice"])] ++ [("allGroups", ([] : List String))] := by
  obtain ⟨groups, hg, hmap, hempty⟩ := EIO_Search_results_structure 1
    ⟨true, 0, 0, [("cn", ["Alice"])], [], fun _ => none, fun n => n⟩
    sampleReq
    ⟨true, [(1, "cn", ["Alice"]), (2, "allGroups", [])]⟩
    [.connect "localhost" 389, .bind "user" "secret",
     .search "dc=example" "(uid=user)", .unbind]
    rfl rfl (fun _ _ hab => hab)
  rw [hempty rfl] at hmap
  exact hmap
